import Mathlib

/-!
Shallow embedding of the collaborative drawing board (`src/src/App.tsx`).

The program keeps client-local history state (`localActions`, `undoneActions`,
the in-progress `currentPathRef` buffer, the drawing flag and the UI colour /
thickness / eraser settings), pushes finalized records to a replication layer
(`db.transact` calls, modelled as a log of `ReplicationOp`s appended in call
order), and replays ordered record lists onto a canvas (`redrawCanvas`).

JavaScript particulars that matter and are modelled explicitly:
  * optional / possibly-missing fields (`paths`, `color`, `thickness`) are
    `Option`s; the truthiness tests `action.paths && …`, `action.color || color`
    and `action.thickness || thickness` are modelled by `Option.isSome`
    respectively the fallback helpers `jsOrStr` / `jsOrNat` (empty string and
    zero are falsy);
  * the canvas is modelled semantically as the list of stroke operations
    painted since the last `clearRect` covering the whole surface;
  * the indexing `path[0]` in `redrawCanvas` is a partial operation, modelled
    with `List.head?`; a `none` result propagates as a failure (`Option.none`
    of the whole replay), so totality of the replay is a real theorem;
  * `id()` produces a fresh identifier; it is passed in as an explicit
    argument to the operations that call it.
-/

namespace DrawingBoard

/-- A 2D point, as delivered by `offsetX` / `offsetY`. -/
structure Point where
  x : Int
  y : Int
deriving DecidableEq, Repr

/-- The `type` field of a `DrawingAction`: `'draw' | 'clear' | 'erase'`. -/
inductive ActionType where
  | draw
  | clear
  | erase
deriving DecidableEq, Repr

/-- The `DrawingAction` record shape. `paths`, `color` and `thickness` may be
absent on records delivered by the replication layer, hence `Option`. -/
structure DrawingAction where
  id : String
  type : ActionType
  paths : Option (List (List Point))
  color : Option String
  thickness : Option Nat
deriving DecidableEq, Repr

/-- JavaScript `o || d` for an optional string: `none` and `""` are falsy. -/
def jsOrStr (o : Option String) (d : String) : String :=
  match o with
  | none => d
  | some s => if s = "" then d else s

/-- JavaScript `o || d` for an optional number: `none` and `0` are falsy. -/
def jsOrNat (o : Option Nat) (d : Nat) : Nat :=
  match o with
  | none => d
  | some n => if n = 0 then d else n

/-- One `context.stroke()` call: `moveTo start` followed by `lineTo` on every
point of `lineTos`, with the stroke style and line width in effect. -/
structure PaintOp where
  start : Point
  lineTos : List Point
  style : String
  width : Nat
deriving DecidableEq, Repr

/-- The canvas surface, modelled as the stroke operations painted since the
last full-surface `clearRect` (which resets it to `[]`). -/
abbrev Canvas := List PaintOp

/-- `context.moveTo(path[0].x, path[0].y)` followed by the `lineTo` loop and
`stroke()`. Reading `path[0]` of an empty path is the modelled runtime
failure, hence `Option`. -/
def strokeOfPath (style : String) (w : Nat) (p : List Point) : Option PaintOp :=
  (p.head?).map (fun p0 => { start := p0, lineTos := p, style := style, width := w })

/-- The inner `action.paths.forEach((path) => { if (path.length > 0) … })`
loop of `redrawCanvas`, threading the canvas. -/
def renderPaths (style : String) (w : Nat) : Canvas → List (List Point) → Option Canvas
  | c, [] => some c
  | c, p :: rest =>
    if p.length > 0 then
      match strokeOfPath style w p with
      | none => none
      | some op => renderPaths style w (c ++ [op]) rest
    else
      renderPaths style w c rest

/-- One iteration of the `actions.forEach` loop of `redrawCanvas`: paint the
paths of a `draw`/`erase` record with truthy `paths`, clear the surface on a
`clear` record, do nothing otherwise. `uc` and `ut` are the component's
current `color` and `thickness` state captured by the callback. -/
def renderAction (uc : String) (ut : Nat) (c : Canvas) (a : DrawingAction) : Option Canvas :=
  match a.paths with
  | some ps =>
    if a.type = ActionType.draw ∨ a.type = ActionType.erase then
      renderPaths (if a.type = ActionType.erase then "#FFFFFF" else jsOrStr a.color uc)
        (jsOrNat a.thickness ut) c ps
    else if a.type = ActionType.clear then some []
    else some c
  | none =>
    if a.type = ActionType.clear then some [] else some c

/-- The `actions.forEach` loop, threading the canvas left to right. -/
def renderActions (uc : String) (ut : Nat) : Canvas → List DrawingAction → Option Canvas
  | c, [] => some c
  | c, a :: rest =>
    match renderAction uc ut c a with
    | none => none
    | some c2 => renderActions uc ut c2 rest

/-- `redrawCanvas(actions)`: clear the whole surface, then replay the records
in order. -/
def redrawCanvas (uc : String) (ut : Nat) (actions : List DrawingAction) : Option Canvas :=
  renderActions uc ut [] actions

/-- A `db.transact` call: `tx.drawingActions[id].update(record)` or
`tx.drawingActions[id].delete()`. -/
inductive ReplicationOp where
  | update (a : DrawingAction)
  | delete (i : String)
deriving DecidableEq, Repr

/-- The component's state: the React `useState` hooks, the `currentPathRef`
buffer, and the log of replication calls issued so far (in call order). -/
structure BoardState where
  isDrawing : Bool
  color : String
  thickness : Nat
  isEraser : Bool
  localActions : List DrawingAction
  undoneActions : List DrawingAction
  currentPath : List Point
  pushed : List ReplicationOp
deriving DecidableEq, Repr

/-- `startDrawing` (pointer-down): set the drawing flag and reset the path
buffer to the single event point. No record is committed or pushed. -/
def startDrawing (p : Point) (s : BoardState) : BoardState :=
  { s with isDrawing := true, currentPath := [p] }

/-- `draw` (pointer-move): if a gesture is open, append the event point to the
path buffer (the incremental canvas painting is a local-feedback side effect,
overwritten by the next full replay). -/
def draw (p : Point) (s : BoardState) : BoardState :=
  if s.isDrawing then { s with currentPath := s.currentPath ++ [p] } else s

/-- A sequence of `draw` calls, in event order. -/
def drawSeq (pts : List Point) (s : BoardState) : BoardState :=
  pts.foldl (fun st p => draw p st) s

/-- The `newAction` record built inside `stopDrawing`: its kind, colour and
thickness are read from the settings in effect at the call. -/
def newActionOf (newId : String) (s : BoardState) : DrawingAction :=
  { id := newId,
    type := if s.isEraser then ActionType.erase else ActionType.draw,
    paths := some [s.currentPath],
    color := some (if s.isEraser then "#FFFFFF" else s.color),
    thickness := some s.thickness }

/-- `stopDrawing` (pointer-up / pointer-out): if a gesture is open, close it;
if the accumulated path is non-empty, build the new record from the settings
in effect now, append it to `localActions`, clear `undoneActions`, and push
an update to the replication layer; finally reset the path buffer. -/
def stopDrawing (newId : String) (s : BoardState) : BoardState :=
  if s.isDrawing then
    if s.currentPath.length > 0 then
      { s with isDrawing := false,
               localActions := s.localActions ++ [newActionOf newId s],
               undoneActions := [],
               pushed := s.pushed ++ [ReplicationOp.update (newActionOf newId s)],
               currentPath := [] }
    else
      { s with isDrawing := false, currentPath := [] }
  else s

/-- `clearCanvas`: append a fresh `clear` record (its `paths` field is the
present-but-empty array `[]`), clear `undoneActions`, push the record. -/
def clearCanvas (newId : String) (s : BoardState) : BoardState :=
  let clearAction : DrawingAction :=
    { id := newId, type := ActionType.clear, paths := some [],
      color := none, thickness := none }
  { s with localActions := s.localActions ++ [clearAction],
           undoneActions := [],
           pushed := s.pushed ++ [ReplicationOp.update clearAction] }

/-- `toggleEraser`. -/
def toggleEraser (s : BoardState) : BoardState :=
  { s with isEraser := !s.isEraser }

/-- `setColor` (colour input `onChange`). -/
def setColor (c : String) (s : BoardState) : BoardState :=
  { s with color := c }

/-- `setThickness` (slider `onValueChange`). -/
def setThickness (t : Nat) (s : BoardState) : BoardState :=
  { s with thickness := t }

/-- `undo`: if `localActions` is non-empty, move its last record onto
`undoneActions` and push a `delete` of that record's id. -/
def undo (s : BoardState) : BoardState :=
  match s.localActions.getLast? with
  | none => s
  | some lastAction =>
    { s with localActions := s.localActions.dropLast,
             undoneActions := s.undoneActions ++ [lastAction],
             pushed := s.pushed ++ [ReplicationOp.delete lastAction.id] }

/-- `redo`: if `undoneActions` is non-empty, move its last record back onto
`localActions` and re-push it as an update. -/
def redo (s : BoardState) : BoardState :=
  match s.undoneActions.getLast? with
  | none => s
  | some actionToRedo =>
    { s with undoneActions := s.undoneActions.dropLast,
             localActions := s.localActions ++ [actionToRedo],
             pushed := s.pushed ++ [ReplicationOp.update actionToRedo] }

/-- The subscription effect: when the replication layer delivers a snapshot,
`setLocalActions(drawingActions)` replaces `localActions` with it;
`undoneActions` is untouched. -/
def onAuthoritativeUpdate (records : List DrawingAction) (s : BoardState) : BoardState :=
  { s with localActions := records }

/-- The ids of a record list, in order. -/
def ids (l : List DrawingAction) : List String :=
  l.map (fun a => a.id)

/-- The history invariant of the spec: each list holds pairwise distinct ids
and no id occurs in both `localActions` and `undoneActions`. -/
def histInv (s : BoardState) : Prop :=
  (ids s.localActions).Nodup ∧ (ids s.undoneActions).Nodup ∧
    ∀ i ∈ ids s.localActions, i ∉ ids s.undoneActions

instance (s : BoardState) : Decidable (histInv s) := by
  unfold histInv
  infer_instance

/-- A quiescent board state used to instantiate hypotheses concretely. -/
def baseState : BoardState :=
  { isDrawing := false, color := "#000000", thickness := 5, isEraser := false,
    localActions := [], undoneActions := [], currentPath := [], pushed := [] }

lemma drawSeq_eq : ∀ (pts : List Point) (s : BoardState), s.isDrawing = true →
    drawSeq pts s = { s with currentPath := s.currentPath ++ pts } := by
  intro pts
  induction pts with
  | nil => intro s _; simp [drawSeq]
  | cons q qs ih =>
    intro s hs
    have h1 : draw q s = { s with currentPath := s.currentPath ++ [q] } := by
      simp [draw, hs]
    show drawSeq qs (draw q s) = _
    rw [h1, ih _ (by simp [hs])]
    simp

lemma stopDrawing_commit (nid : String) (s : BoardState)
    (hd : s.isDrawing = true) (hp : s.currentPath ≠ []) :
    stopDrawing nid s =
      { s with isDrawing := false,
               localActions := s.localActions ++ [newActionOf nid s],
               undoneActions := [],
               pushed := s.pushed ++ [ReplicationOp.update (newActionOf nid s)],
               currentPath := [] } := by
  simp [stopDrawing, hd, List.length_pos, hp]

/-- C1: a begin/extend*/end gesture accumulates the path `p :: pts`, which is
never empty, and `stopDrawing` then appends exactly one record to the tail of
`localActions`, empties `undoneActions`, and pushes exactly that record to
the replication layer; and on a state whose accumulated path is empty,
`stopDrawing` appends and transmits nothing. -/
theorem gesture_commits_exactly_one (s0 se : BoardState) (p : Point) (pts : List Point)
    (nid nid2 : String) (hse : se.currentPath = []) :
    ((drawSeq pts (startDrawing p s0)).currentPath = p :: pts ∧
      ∃ r, (stopDrawing nid (drawSeq pts (startDrawing p s0))).localActions
              = s0.localActions ++ [r] ∧
        (stopDrawing nid (drawSeq pts (startDrawing p s0))).undoneActions = [] ∧
        (stopDrawing nid (drawSeq pts (startDrawing p s0))).pushed
              = s0.pushed ++ [ReplicationOp.update r]) ∧
    ((stopDrawing nid2 se).localActions = se.localActions ∧
      (stopDrawing nid2 se).undoneActions = se.undoneActions ∧
      (stopDrawing nid2 se).pushed = se.pushed) := by
  have hseq : drawSeq pts (startDrawing p s0)
      = { s0 with isDrawing := true, currentPath := p :: pts } := by
    rw [drawSeq_eq pts (startDrawing p s0) rfl]
    simp [startDrawing]
  have hcommit := stopDrawing_commit nid (drawSeq pts (startDrawing p s0))
      (by rw [hseq]) (by rw [hseq]; simp)
  refine ⟨⟨by rw [hseq], ⟨newActionOf nid (drawSeq pts (startDrawing p s0)),
      by rw [hcommit, hseq], by rw [hcommit], by rw [hcommit, hseq]⟩⟩, ?_⟩
  by_cases hd : se.isDrawing = true
  · simp [stopDrawing, hd, hse]
  · simp [stopDrawing, hd]

/-- Witness for C1 at the spec scenario begin(10,10), extend(20,10),
extend(20,20), end. -/
theorem gesture_commits_exactly_one_witness :
    ((drawSeq [⟨20, 10⟩, ⟨20, 20⟩] (startDrawing ⟨10, 10⟩ baseState)).currentPath
        = ⟨10, 10⟩ :: [⟨20, 10⟩, ⟨20, 20⟩] ∧
      ∃ r, (stopDrawing "g1" (drawSeq [⟨20, 10⟩, ⟨20, 20⟩]
                (startDrawing ⟨10, 10⟩ baseState))).localActions
              = baseState.localActions ++ [r] ∧
        (stopDrawing "g1" (drawSeq [⟨20, 10⟩, ⟨20, 20⟩]
                (startDrawing ⟨10, 10⟩ baseState))).undoneActions = [] ∧
        (stopDrawing "g1" (drawSeq [⟨20, 10⟩, ⟨20, 20⟩]
                (startDrawing ⟨10, 10⟩ baseState))).pushed
              = baseState.pushed ++ [ReplicationOp.update r]) ∧
    ((stopDrawing "g2" baseState).localActions = baseState.localActions ∧
      (stopDrawing "g2" baseState).undoneActions = baseState.undoneActions ∧
      (stopDrawing "g2" baseState).pushed = baseState.pushed) :=
  gesture_commits_exactly_one baseState baseState ⟨10, 10⟩ [⟨20, 10⟩, ⟨20, 20⟩]
    "g1" "g2" rfl

/-- C8: `undo` on an empty `localActions` and `redo` on an empty
`undoneActions` are both no-ops: the whole state, including the replication
log, is unchanged (and being total functions they raise nothing). -/
theorem undo_redo_empty_noop (s t : BoardState)
    (hs : s.localActions = []) (ht : t.undoneActions = []) :
    undo s = s ∧ redo t = t := by
  constructor
  · simp [undo, hs]
  · simp [redo, ht]

/-- Witness for C8 at the quiescent state. -/
theorem undo_redo_empty_noop_witness :
    undo baseState = baseState ∧ redo baseState = baseState :=
  undo_redo_empty_noop baseState baseState rfl rfl

/-- C9: the committed record samples its attributes when `stopDrawing` runs:
after mid-gesture `setColor`, `setThickness` and `toggleEraser`, the record
appended (and pushed) by `stopDrawing` carries the post-change kind, colour
and thickness, over the path accumulated before the changes. -/
theorem record_attributes_sampled_at_end (s : BoardState) (c2 : String) (t2 : Nat)
    (nid : String) (hd : s.isDrawing = true) (hp : s.currentPath ≠ []) :
    ∃ r, (stopDrawing nid (toggleEraser (setThickness t2 (setColor c2 s)))).localActions
            = s.localActions ++ [r] ∧
      r.type = (if s.isEraser then ActionType.draw else ActionType.erase) ∧
      r.color = some (if s.isEraser then c2 else "#FFFFFF") ∧
      r.thickness = some t2 ∧
      r.paths = some [s.currentPath] ∧
      (stopDrawing nid (toggleEraser (setThickness t2 (setColor c2 s)))).pushed
            = s.pushed ++ [ReplicationOp.update r] := by
  have hd3 : (toggleEraser (setThickness t2 (setColor c2 s))).isDrawing = true := hd
  have hp3 : (toggleEraser (setThickness t2 (setColor c2 s))).currentPath ≠ [] := hp
  have hcommit := stopDrawing_commit nid _ hd3 hp3
  refine ⟨newActionOf nid (toggleEraser (setThickness t2 (setColor c2 s))),
    by rw [hcommit]; simp [toggleEraser, setThickness, setColor], ?_, ?_, ?_, ?_,
    by rw [hcommit]; simp [toggleEraser, setThickness, setColor]⟩ <;>
    simp [newActionOf, toggleEraser, setThickness, setColor] <;>
    cases s.isEraser <;> simp

/-- Witness for C9: toggle to eraser and change thickness mid-gesture; the
committed record is an erase record with the new thickness. -/
theorem record_attributes_sampled_at_end_witness :
    ∃ r, (stopDrawing "g3" (toggleEraser (setThickness 9 (setColor "#112233"
            (startDrawing ⟨1, 2⟩ baseState))))).localActions
            = (startDrawing ⟨1, 2⟩ baseState).localActions ++ [r] ∧
      r.type = (if (startDrawing ⟨1, 2⟩ baseState).isEraser
                  then ActionType.draw else ActionType.erase) ∧
      r.color = some (if (startDrawing ⟨1, 2⟩ baseState).isEraser
                  then "#112233" else "#FFFFFF") ∧
      r.thickness = some 9 ∧
      r.paths = some [(startDrawing ⟨1, 2⟩ baseState).currentPath] ∧
      (stopDrawing "g3" (toggleEraser (setThickness 9 (setColor "#112233"
            (startDrawing ⟨1, 2⟩ baseState))))).pushed
            = (startDrawing ⟨1, 2⟩ baseState).pushed ++ [ReplicationOp.update r] :=
  record_attributes_sampled_at_end (startDrawing ⟨1, 2⟩ baseState) "#112233" 9 "g3"
    rfl (by decide)

lemma undo_eq (s : BoardState) (la : DrawingAction)
    (h : s.localActions.getLast? = some la) :
    undo s =
      { s with localActions := s.localActions.dropLast,
               undoneActions := s.undoneActions ++ [la],
               pushed := s.pushed ++ [ReplicationOp.delete la.id] } := by
  simp [undo, h]

lemma redo_eq (s : BoardState) (ra : DrawingAction)
    (h : s.undoneActions.getLast? = some ra) :
    redo s =
      { s with undoneActions := s.undoneActions.dropLast,
               localActions := s.localActions ++ [ra],
               pushed := s.pushed ++ [ReplicationOp.update ra] } := by
  simp [redo, h]

/-- Sample draw record A. -/
def recA : DrawingAction :=
  { id := "a", type := ActionType.draw, paths := some [[⟨0, 0⟩, ⟨1, 1⟩]],
    color := some "#000000", thickness := some 5 }

/-- Sample draw record B. -/
def recB : DrawingAction :=
  { id := "b", type := ActionType.draw, paths := some [[⟨2, 2⟩, ⟨3, 3⟩]],
    color := some "#FF0000", thickness := some 3 }

/-- Sample erase record C. -/
def recC : DrawingAction :=
  { id := "c", type := ActionType.erase, paths := some [[⟨4, 4⟩, ⟨5, 5⟩]],
    color := some "#FFFFFF", thickness := some 7 }

/-- Sample clear record (its `paths` is the present-but-empty array). -/
def clearRec : DrawingAction :=
  { id := "k", type := ActionType.clear, paths := some [],
    color := none, thickness := none }

/-- A draw record with no `color` field, as the replication layer may
deliver. -/
def noColorRec : DrawingAction :=
  { id := "n", type := ActionType.draw, paths := some [[⟨0, 0⟩]],
    color := none, thickness := some 5 }

/-- A board state holding the three sample records A, B, C in order. -/
def stateABC : BoardState :=
  { baseState with localActions := [recA, recB, recC] }

/-- C2: on a non-empty `localActions` (whose last record is `la`), `undo`
removes exactly that record from the tail, pushes it on top of
`undoneActions`, and issues exactly one `delete` of its id to the
replication layer; the remaining records of both lists are untouched. -/
theorem undo_moves_last (s : BoardState) (la : DrawingAction)
    (h : s.localActions.getLast? = some la) :
    (undo s).localActions = s.localActions.dropLast ∧
    (undo s).undoneActions = s.undoneActions ++ [la] ∧
    (undo s).pushed = s.pushed ++ [ReplicationOp.delete la.id] := by
  rw [undo_eq s la h]
  exact ⟨rfl, rfl, rfl⟩

/-- Witness for C2 on the state A, B, C. -/
theorem undo_moves_last_witness :
    (undo stateABC).localActions = stateABC.localActions.dropLast ∧
    (undo stateABC).undoneActions = stateABC.undoneActions ++ [recC] ∧
    (undo stateABC).pushed = stateABC.pushed ++ [ReplicationOp.delete recC.id] :=
  undo_moves_last stateABC recC (by decide)

/-- C3: on a non-empty `localActions`, `undo` then `redo` restores both
`localActions` and `undoneActions` exactly (same records, same order). -/
theorem undo_then_redo_restores (s : BoardState) (h : s.localActions ≠ []) :
    (redo (undo s)).localActions = s.localActions ∧
    (redo (undo s)).undoneActions = s.undoneActions := by
  obtain ⟨la, hla⟩ := Option.isSome_iff_exists.mp (List.getLast?_isSome.mpr h)
  rw [undo_eq s la hla]
  rw [redo_eq _ la (by simp)]
  constructor
  · simpa using List.dropLast_append_getLast? la (by simp [hla])
  · simp

/-- Witness for C3 at the spec scenario active = [A, B, C]: one undo leaves
[A, B] with [C] undone, one redo restores [A, B, C] with nothing undone. -/
theorem undo_then_redo_restores_witness :
    (undo stateABC).localActions = [recA, recB] ∧
    (undo stateABC).undoneActions = [recC] ∧
    (redo (undo stateABC)).localActions = stateABC.localActions ∧
    (redo (undo stateABC)).undoneActions = stateABC.undoneActions :=
  ⟨by decide, by decide, (undo_then_redo_restores stateABC (by decide)).1,
    (undo_then_redo_restores stateABC (by decide)).2⟩

lemma renderPaths_total (style : String) (w : Nat) :
    ∀ (ps : List (List Point)) (c : Canvas), ∃ c2, renderPaths style w c ps = some c2 := by
  intro ps
  induction ps with
  | nil => intro c; exact ⟨c, rfl⟩
  | cons p rest ih =>
    intro c
    cases p with
    | nil => simpa [renderPaths] using ih c
    | cons q qs =>
      simpa [renderPaths, strokeOfPath] using
        ih (c ++ [{ start := q, lineTos := q :: qs, style := style, width := w }])

lemma renderAction_total (uc : String) (ut : Nat) (c : Canvas) (a : DrawingAction) :
    ∃ c2, renderAction uc ut c a = some c2 := by
  unfold renderAction
  cases hpa : a.paths with
  | none => by_cases h : a.type = ActionType.clear <;> simp [h]
  | some ps =>
    by_cases h : a.type = ActionType.draw ∨ a.type = ActionType.erase
    · simpa [h] using renderPaths_total _ _ ps c
    · by_cases h2 : a.type = ActionType.clear <;> simp [h, h2]

lemma renderActions_total (uc : String) (ut : Nat) :
    ∀ (l : List DrawingAction) (c : Canvas), ∃ c2, renderActions uc ut c l = some c2 := by
  intro l
  induction l with
  | nil => intro c; exact ⟨c, rfl⟩
  | cons a rest ih =>
    intro c
    obtain ⟨c2, hc2⟩ := renderAction_total uc ut c a
    obtain ⟨c3, hc3⟩ := ih c2
    exact ⟨c3, by simp [renderActions, hc2, hc3]⟩

/-- C10: the replay is total on every record list, including records with a
missing `paths` field, an empty `paths` list, or empty point arrays inside
`paths`: the guarded `path[0]` read never hits an empty path and the whole
replay returns a canvas (never the modelled runtime failure `none`). -/
theorem redrawCanvas_total (uc : String) (ut : Nat) (actions : List DrawingAction) :
    ∃ c, redrawCanvas uc ut actions = some c :=
  renderActions_total uc ut actions []

lemma renderAction_clear (uc : String) (ut : Nat) (c : Canvas) (a : DrawingAction)
    (h : a.type = ActionType.clear) :
    renderAction uc ut c a = some [] := by
  unfold renderAction
  cases a.paths with
  | none => simp [h]
  | some ps => simp [h]

lemma renderActions_append (uc : String) (ut : Nat) :
    ∀ (l1 l2 : List DrawingAction) (c : Canvas),
    renderActions uc ut c (l1 ++ l2) =
      (renderActions uc ut c l1).bind (fun c2 => renderActions uc ut c2 l2) := by
  intro l1
  induction l1 with
  | nil => intro l2 c; simp [renderActions]
  | cons a rest ih =>
    intro l2 c
    obtain ⟨c2, hc2⟩ := renderAction_total uc ut c a
    simp [renderActions, hc2, ih]

/-- C4: the replay starts from a cleared surface and processes records in
order; a `clear` record resets the surface, so the final output of a list
with a `clear` at position k equals the replay of the records after k — no
paint from records before the `clear` survives, whatever they contain. -/
theorem clear_makes_prefix_invisible (uc : String) (ut : Nat)
    (l1 l2 : List DrawingAction) (a : DrawingAction)
    (h : a.type = ActionType.clear) :
    redrawCanvas uc ut (l1 ++ a :: l2) = redrawCanvas uc ut l2 := by
  unfold redrawCanvas
  rw [renderActions_append]
  obtain ⟨c1, hc1⟩ := renderActions_total uc ut l1 []
  rw [hc1]
  simp [renderActions, renderAction_clear uc ut c1 a h]

/-- Witness for C4: a clear between two draw records makes the output equal
to replaying the suffix alone. -/
theorem clear_makes_prefix_invisible_witness :
    redrawCanvas "#000000" 5 ([recA] ++ clearRec :: [recB])
      = redrawCanvas "#000000" 5 [recB] :=
  clear_makes_prefix_invisible "#000000" 5 [recA] [recB] clearRec rfl

/-- Counterexample to C5 as stated: a draw record whose `color` field is
missing is painted with the controller's current colour (`action.color ||
color`), so the same record list renders differently under two different UI
colours. -/
theorem render_depends_on_ui_settings :
    redrawCanvas "#000000" 5 [noColorRec] ≠ redrawCanvas "#FF0000" 5 [noColorRec] := by
  decide

/-- JavaScript truthiness of an optional colour string. -/
def truthyColor (o : Option String) : Bool :=
  match o with
  | none => false
  | some s => !(s == "")

/-- JavaScript truthiness of an optional thickness number. -/
def truthyWidth (o : Option Nat) : Bool :=
  match o with
  | none => false
  | some n => !(n == 0)

/-- A record carries its own style: a draw record has a truthy `color`, and a
draw or erase record has a truthy `thickness`, so the `||` fallbacks to the
UI state are never taken. -/
def stylesOwn (a : DrawingAction) : Prop :=
  (a.type = ActionType.draw → truthyColor a.color = true) ∧
  ((a.type = ActionType.draw ∨ a.type = ActionType.erase) → truthyWidth a.thickness = true)

instance (a : DrawingAction) : Decidable (stylesOwn a) := by
  unfold stylesOwn
  infer_instance

lemma jsOrStr_of_truthy {o : Option String} (h : truthyColor o = true) (d1 d2 : String) :
    jsOrStr o d1 = jsOrStr o d2 := by
  cases o with
  | none => simp [truthyColor] at h
  | some s =>
    simp [truthyColor] at h
    simp [jsOrStr, h]

lemma jsOrNat_of_truthy {o : Option Nat} (h : truthyWidth o = true) (d1 d2 : Nat) :
    jsOrNat o d1 = jsOrNat o d2 := by
  cases o with
  | none => simp [truthyWidth] at h
  | some n =>
    simp [truthyWidth] at h
    simp [jsOrNat, h]

lemma renderAction_ui_indep (uc1 uc2 : String) (ut1 ut2 : Nat) (c : Canvas)
    (a : DrawingAction) (h : stylesOwn a) :
    renderAction uc1 ut1 c a = renderAction uc2 ut2 c a := by
  unfold renderAction
  cases hpa : a.paths with
  | none => rfl
  | some ps =>
    by_cases hde : a.type = ActionType.draw ∨ a.type = ActionType.erase
    · have hw : jsOrNat a.thickness ut1 = jsOrNat a.thickness ut2 :=
        jsOrNat_of_truthy (h.2 hde) ut1 ut2
      by_cases he : a.type = ActionType.erase
      · simp [hde, he, hw]
      · have hd : a.type = ActionType.draw := by
          rcases hde with hd | he2
          · exact hd
          · exact absurd he2 he
        have hc : jsOrStr a.color uc1 = jsOrStr a.color uc2 :=
          jsOrStr_of_truthy (h.1 hd) uc1 uc2
        simp [hde, he, hw, hc]
    · simp [hde]

lemma renderActions_ui_indep (uc1 uc2 : String) (ut1 ut2 : Nat) :
    ∀ (l : List DrawingAction) (c : Canvas), (∀ a ∈ l, stylesOwn a) →
    renderActions uc1 ut1 c l = renderActions uc2 ut2 c l := by
  intro l
  induction l with
  | nil => intro c _; rfl
  | cons a rest ih =>
    intro c hall
    have ha := hall a (by simp)
    have hrest : ∀ b ∈ rest, stylesOwn b := fun b hb => hall b (by simp [hb])
    obtain ⟨c2, hc2⟩ := renderAction_total uc1 ut1 c a
    have hc2' : renderAction uc2 ut2 c a = some c2 :=
      (renderAction_ui_indep uc1 uc2 ut1 ut2 c a ha) ▸ hc2
    simp [renderActions, hc2, hc2', ih c2 hrest]

/-- C5 amended: the replay is independent of the controller's current colour
and thickness for record lists whose draw/erase records carry their own
truthy `color` and `thickness` (every record this client commits does);
records with a missing or falsy field fall back to the UI settings. -/
theorem redraw_ui_independent (actions : List DrawingAction)
    (h : ∀ a ∈ actions, stylesOwn a) (uc1 uc2 : String) (ut1 ut2 : Nat) :
    redrawCanvas uc1 ut1 actions = redrawCanvas uc2 ut2 actions :=
  renderActions_ui_indep uc1 uc2 ut1 ut2 actions [] h

/-- Witness for the amended C5 on self-committed records under two very
different UI settings. -/
theorem redraw_ui_independent_witness :
    redrawCanvas "#000000" 5 [recA, recC, clearRec, recB]
      = redrawCanvas "#123456" 30 [recA, recC, clearRec, recB] :=
  redraw_ui_independent [recA, recC, clearRec, recB] (by decide) "#000000" "#123456" 5 30

/-- A board state with a gesture open and two points accumulated. -/
def midGesture : BoardState :=
  { baseState with isDrawing := true, currentPath := [⟨1, 1⟩, ⟨2, 2⟩] }

/-- Counterexample to C6: with a gesture open and two points accumulated, a
further pointer-down neither keeps the accumulated points nor finalizes
them: the buffer is reset to the new point alone while `localActions` and
the replication log are untouched — the prior points are silently lost. -/
theorem nested_begin_discards_points :
    midGesture.isDrawing = true ∧
    midGesture.currentPath = [⟨1, 1⟩, ⟨2, 2⟩] ∧
    (startDrawing ⟨5, 5⟩ midGesture).currentPath = [⟨5, 5⟩] ∧
    (startDrawing ⟨5, 5⟩ midGesture).localActions = midGesture.localActions ∧
    (startDrawing ⟨5, 5⟩ midGesture).undoneActions = midGesture.undoneActions ∧
    (startDrawing ⟨5, 5⟩ midGesture).pushed = midGesture.pushed := by
  decide

/-- C6 amended: `startDrawing` in any state (also mid-gesture) resets the
accumulation buffer to the new point, discarding previously accumulated
points without committing them: `localActions`, `undoneActions` and the
replication log are unchanged. -/
theorem begin_resets_buffer (s : BoardState) (p : Point) :
    (startDrawing p s).isDrawing = true ∧
    (startDrawing p s).currentPath = [p] ∧
    (startDrawing p s).localActions = s.localActions ∧
    (startDrawing p s).undoneActions = s.undoneActions ∧
    (startDrawing p s).pushed = s.pushed :=
  ⟨rfl, rfl, rfl, rfl, rfl⟩

/-- A state in which record A has been undone and `localActions` is empty,
as after `undo` on a one-record board. -/
def undoneOnly : BoardState :=
  { baseState with undoneActions := [recA] }

/-- Counterexample to C7: from a state satisfying the invariant, the
authoritative-update effect installs a snapshot that still contains the
undone record A (its deletion has not propagated yet), leaving A's id in
both `localActions` and `undoneActions`. -/
theorem snapshot_breaks_disjointness :
    histInv undoneOnly ∧ ¬ histInv (onAuthoritativeUpdate [recA] undoneOnly) := by
  decide

lemma ids_append (l1 l2 : List DrawingAction) : ids (l1 ++ l2) = ids l1 ++ ids l2 := by
  simp [ids]

lemma nodup_append_single {α : Type} {l : List α} {x : α}
    (hl : l.Nodup) (hx : x ∉ l) : (l ++ [x]).Nodup :=
  hl.append (List.nodup_singleton x) (List.disjoint_singleton.2 hx)

lemma mem_ids_of_mem {a : DrawingAction} {l : List DrawingAction}
    (h : a ∈ l) : a.id ∈ ids l :=
  List.mem_map_of_mem (fun b => b.id) h

/-- C7 amended: the disjointness invariant survives `stopDrawing`,
`clearCanvas`, `undo` and `redo` (commits use a fresh id), but
`onAuthoritativeUpdate` preserves it only when the delivered snapshot has
distinct ids none of which is still in `undoneActions`; a snapshot that
still carries an undone record breaks it (see the counterexample). -/
theorem history_disjointness_preserved (s : BoardState) (nid : String)
    (records : List DrawingAction) (hInv : histInv s)
    (hfresh : ∀ a ∈ s.localActions, a.id ≠ nid)
    (hrec : (ids records).Nodup)
    (hdisj : ∀ i ∈ ids records, i ∉ ids s.undoneActions) :
    histInv (stopDrawing nid s) ∧ histInv (clearCanvas nid s) ∧
    histInv (undo s) ∧ histInv (redo s) ∧
    histInv (onAuthoritativeUpdate records s) := by
  obtain ⟨hlocal, hundone, hdis⟩ := hInv
  have hfresh' : nid ∉ ids s.localActions := by
    intro hmem
    obtain ⟨a, ha, hae⟩ := List.mem_map.mp hmem
    exact hfresh a ha hae
  refine ⟨?_, ?_, ?_, ?_, ⟨hrec, hundone, hdisj⟩⟩
  · by_cases hd : s.isDrawing = true
    · by_cases hp : s.currentPath = []
      · simp only [stopDrawing, hd, if_true, hp, List.length_nil, gt_iff_lt,
          Nat.lt_irrefl, if_false]
        exact ⟨hlocal, hundone, hdis⟩
      · rw [stopDrawing_commit nid s hd hp]
        refine ⟨?_, by simp [ids], by simp [ids]⟩
        rw [ids_append]
        exact nodup_append_single hlocal hfresh'
    · simp only [stopDrawing, hd, if_false]
      exact ⟨hlocal, hundone, hdis⟩
  · refine ⟨?_, by simp [clearCanvas, ids], ?_⟩
    · show (ids (s.localActions ++ [_])).Nodup
      rw [ids_append]
      exact nodup_append_single hlocal hfresh'
    · show ∀ i ∈ ids (s.localActions ++ [_]), i ∉ ids ([] : List DrawingAction)
      simp [ids]
  · cases hla : s.localActions.getLast? with
    | none =>
      have : undo s = s := by simp [undo, hla]
      rw [this]
      exact ⟨hlocal, hundone, hdis⟩
    | some la =>
      rw [undo_eq s la hla]
      have hsplit : s.localActions.dropLast ++ [la] = s.localActions :=
        List.dropLast_append_getLast? la (by simp [hla])
      have hids : ids s.localActions = ids s.localActions.dropLast ++ [la.id] := by
        rw [← hsplit, ids_append]
        simp [ids]
      have hlocal' := hids ▸ hlocal
      obtain ⟨hdrop, -, hdisjLast⟩ := List.nodup_append.mp hlocal'
      have hlaNotUndone : la.id ∉ ids s.undoneActions :=
        hdis la.id (mem_ids_of_mem (List.mem_of_getLast?_eq_some hla))
      refine ⟨hdrop, ?_, ?_⟩
      · show (ids (s.undoneActions ++ [la])).Nodup
        rw [ids_append]
        exact nodup_append_single hundone hlaNotUndone
      · intro i hi
        have hiLocal : i ∈ ids s.localActions := by
          rw [hids]
          exact List.mem_append_left _ hi
        have hine : i ≠ la.id := by
          intro he
          exact (hdisjLast hi) (by simp [he])
        rw [ids_append]
        simp only [List.mem_append]
        rintro (hiu | hil)
        · exact hdis i hiLocal hiu
        · exact hine (by simpa [ids] using hil)
  · cases hra : s.undoneActions.getLast? with
    | none =>
      have : redo s = s := by simp [redo, hra]
      rw [this]
      exact ⟨hlocal, hundone, hdis⟩
    | some ra =>
      rw [redo_eq s ra hra]
      have hsplit : s.undoneActions.dropLast ++ [ra] = s.undoneActions :=
        List.dropLast_append_getLast? ra (by simp [hra])
      have hids : ids s.undoneActions = ids s.undoneActions.dropLast ++ [ra.id] := by
        rw [← hsplit, ids_append]
        simp [ids]
      have hundone' := hids ▸ hundone
      obtain ⟨hdrop, -, hdisjLast⟩ := List.nodup_append.mp hundone'
      have hraNotLocal : ra.id ∉ ids s.localActions := by
        intro hmem
        exact hdis ra.id hmem
          (mem_ids_of_mem (List.mem_of_getLast?_eq_some hra))
      refine ⟨?_, hdrop, ?_⟩
      · show (ids (s.localActions ++ [ra])).Nodup
        rw [ids_append]
        exact nodup_append_single hlocal hraNotLocal
      · intro i hi
        rw [ids_append] at hi
        rcases List.mem_append.mp hi with hil | hir
        · intro hidrop
          exact hdis i hil (by rw [hids]; exact List.mem_append_left _ hidrop)
        · have : i = ra.id := by simpa [ids] using hir
          subst this
          intro hidrop
          exact (hdisjLast hidrop) (by simp)

/-- Witness for the amended C7 on a concrete two-record state, a fresh id
and a disjoint snapshot. -/
theorem history_disjointness_preserved_witness :
    histInv (stopDrawing "z" stateABC) ∧ histInv (clearCanvas "z" stateABC) ∧
    histInv (undo stateABC) ∧ histInv (redo stateABC) ∧
    histInv (onAuthoritativeUpdate [recB] stateABC) :=
  history_disjointness_preserved stateABC "z" [recB] (by decide) (by decide)
    (by decide) (by decide)

end DrawingBoard
